import Mathlib

/-!
Shallow embedding of the `User` service (src/src/User.ts, src/src/schema.ts)
of the Mikhus/user repository.

The MongoDB collection is modelled as a `List UserDoc`; every service method
becomes a pure function from the store (and its arguments) to a result and
the successor store.  Errors thrown by a method are modelled with `Except`:
a thrown error that escapes the method is `.error e`, a caught-and-logged
error that makes the method return `null` is `.ok none`.

Identifier strings (Mongo ObjectId strings) are modelled as decimal numerals
of the natural-number document id.  `ObjectId?` models the
`mongoose.Types.ObjectId` constructor: it succeeds exactly on non-empty
all-digit strings and throws (`none`) on anything else, in particular on any
e-mail address (a string containing the character at code point 64).
-/

namespace UserService

/-- Error taxonomy of the service (spec section 7 and part_003 error list). -/
inductive Err where
  /-- the TypeError raised by `createUser` when the store reports a
  duplicate-key violation on the unique `email` index -/
  | duplicateEmail
  /-- a raw duplicate-key store error that is not caught and translated
  (update path) -/
  | duplicateKey
  /-- a mongoose schema-validation error from `save()` (missing/empty
  required field) -/
  | validationError
  /-- the `Max number of cars exceeded!` error thrown by `addCar` -/
  | limitExceeded
  /-- the `Invalid carId given!` error thrown inside `removeCar` -/
  | invalidCarId
  /-- an invalid-identifier error thrown by the `ObjectId` constructor or
  by casting a query value -/
  | castError
deriving DecidableEq, Repr

/-- Car sub-document (src/src/schema.ts, `cars` entry type): the store
assigns every sub-document an `_id` on insertion. -/
structure Car where
  _id : Nat
  carId : String
  regNumber : String
deriving DecidableEq, Repr

/-- User document as persisted (src/src/schema.ts). -/
structure UserDoc where
  _id : Nat
  email : String
  password : String
  isActive : Bool
  isAdmin : Bool
  firstName : String
  lastName : String
  cars : List Car
deriving DecidableEq, Repr

/-- Input payload of `update` (`UserObject` of src/unnamed/part_002 plus the
schema fields): every field optional, `none` modelling an absent key. -/
structure UserInput where
  _id : Option String := none
  email : Option String := none
  password : Option String := none
  isActive : Option Bool := none
  isAdmin : Option Bool := none
  firstName : Option String := none
  lastName : Option String := none
  cars : Option (List Car) := none
deriving DecidableEq, Repr

/-- Projection of a user document as returned to the caller: a field is
`none` when the projection excludes it (`_id` is always included). -/
structure UserProj where
  _id : Option Nat
  email : Option String
  password : Option String
  isActive : Option Bool
  isAdmin : Option Bool
  firstName : Option String
  lastName : Option String
  cars : Option (List Car)
deriving DecidableEq, Repr

/-- Modelled from the spec: the `isEmail` helper of src/helpers.ts is not
under src/; per the spec a criteria string is an e-mail exactly when it
contains the at-sign character. -/
def isEmail (s : String) : Bool := s.data.contains '@'

/-- Modelled from the spec: the `md5` helper of src/helpers.ts is not under
src/; the spec requires a deterministic digest, modelled as an injective
tagging of the plaintext (one-wayness is outside the embedding). -/
def md5 (s : String) : String := String.mk ('#' :: s.data)

/-- JavaScript truthiness of an optional string (`if (data._id)`,
`if (data.password)`): present and non-empty. -/
def truthy : Option String → Bool
  | some s => s != ""
  | none => false

/-- JavaScript truthiness of an optional number (`if (skip)`, `if (limit)`):
present and non-zero, so zero behaves like an absent argument. -/
def truthyNat : Option Nat → Bool
  | some n => n != 0
  | none => false

/-- Decimal digits of a natural number, most significant first, with
structural fuel so that the definition reduces in the kernel. -/
def toDigitsAux : Nat → Nat → List Char
  | 0, _ => []
  | fuel + 1, n =>
    if n < 10 then [Nat.digitChar n]
    else toDigitsAux fuel (n / 10) ++ [Nat.digitChar (n % 10)]

/-- Rendering of a document id as its identifier string
(`String(user._id)` in the source). -/
def idToString (n : Nat) : String := String.mk (toDigitsAux (n + 1) n)

/-- Numeric value of a digit character. -/
def charDigit (c : Char) : Nat := c.toNat - 48

/-- Value of a most-significant-first digit string. -/
def parseDigits (l : List Char) : Nat :=
  l.foldl (fun a c => 10 * a + charDigit c) 0

/-- Model of the `mongoose.Types.ObjectId` constructor on strings: succeeds
exactly on well-formed identifier strings (non-empty, all digits), throws
otherwise — in particular on every e-mail address. -/
def ObjectId? (s : String) : Option Nat :=
  if !s.data.isEmpty && s.data.all Char.isDigit
  then some (parseDigits s.data) else none

theorem charDigit_digitChar {d : Nat} (hd : d < 10) :
    charDigit (Nat.digitChar d) = d := by
  interval_cases d <;> decide

theorem isDigit_digitChar {d : Nat} (hd : d < 10) :
    (Nat.digitChar d).isDigit = true := by
  interval_cases d <;> decide

theorem mem_toDigitsAux_isDigit :
    ∀ {fuel n c}, c ∈ toDigitsAux fuel n → c.isDigit = true := by
  intro fuel
  induction fuel with
  | zero => intro n c h; simp [toDigitsAux] at h
  | succ fuel ih =>
    intro n c h
    rw [toDigitsAux] at h
    by_cases hn : n < 10
    · simp [hn] at h
      exact h ▸ isDigit_digitChar hn
    · simp [hn, List.mem_append] at h
      rcases h with h | h
      · exact ih h
      · exact h ▸ isDigit_digitChar (Nat.mod_lt _ (by omega))

theorem toDigitsAux_ne_nil : ∀ {fuel n}, n < fuel → toDigitsAux fuel n ≠ [] := by
  intro fuel n h
  match fuel with
  | fuel + 1 =>
    rw [toDigitsAux]
    by_cases hn : n < 10 <;> simp [hn]

theorem parseDigits_append_singleton (l : List Char) (c : Char) :
    parseDigits (l ++ [c]) = 10 * parseDigits l + charDigit c := by
  simp [parseDigits, List.foldl_append]

theorem parseDigits_toDigitsAux :
    ∀ {fuel n}, n < fuel → parseDigits (toDigitsAux fuel n) = n := by
  intro fuel
  induction fuel with
  | zero => intro n h; omega
  | succ fuel ih =>
    intro n h
    rw [toDigitsAux]
    by_cases hn : n < 10
    · simp only [hn, if_true]
      show parseDigits ([] ++ [Nat.digitChar n]) = n
      rw [parseDigits_append_singleton]
      simp [parseDigits, charDigit_digitChar hn]
    · simp only [hn, if_false]
      rw [parseDigits_append_singleton]
      have hdiv : n / 10 < fuel := by
        have := Nat.div_lt_self (by omega : 0 < n) (by omega : 1 < 10)
        omega
      rw [ih hdiv, charDigit_digitChar (Nat.mod_lt _ (by omega))]
      omega

/-- The identifier string of a document id parses back to that id. -/
theorem objectId_idToString (n : Nat) : ObjectId? (idToString n) = some n := by
  have hne : toDigitsAux (n + 1) n ≠ [] := toDigitsAux_ne_nil (by omega)
  have hall : (toDigitsAux (n + 1) n).all Char.isDigit = true := by
    rw [List.all_eq_true]
    intro c hc
    exact mem_toDigitsAux_isDigit hc
  simp only [ObjectId?, idToString]
  simp [hne, hall, parseDigits_toDigitsAux (by omega : n < n + 1)]

/-- An identifier string is never classified as an e-mail. -/
theorem isEmail_idToString (n : Nat) : isEmail (idToString n) = false := by
  simp only [isEmail, idToString]
  rw [List.contains_eq_any_beq]
  simp only [List.any_eq_false]
  intro c hc
  have := mem_toDigitsAux_isDigit hc
  intro hbeq
  rw [beq_iff_eq] at hbeq
  subst hbeq
  simp [Char.isDigit] at this

/-- An e-mail address never converts with `ObjectId?`. -/
theorem objectId_isEmail_eq_none {s : String} (h : isEmail s = true) :
    ObjectId? s = none := by
  simp only [isEmail] at h
  rw [List.contains_eq_any_beq, List.any_eq_true] at h
  obtain ⟨c, hc, hbeq⟩ := h
  rw [beq_iff_eq] at hbeq
  subst hbeq
  simp only [ObjectId?]
  have : s.data.all Char.isDigit = false := by
    rw [List.all_eq_false]
    exact ⟨'@', hc, by decide⟩
  simp [this]

/-- A string that converts with `ObjectId?` is not an e-mail. -/
theorem isEmail_of_objectId {s : String} {oid : Nat}
    (h : ObjectId? s = some oid) : isEmail s = false := by
  by_cases he : isEmail s
  · rw [objectId_isEmail_eq_none he] at h; cases h
  · simpa using he

/-- Filter payload of `count`/`find` (src/unnamed/part_000, `UserFilters`):
every field optional, `none` modelling an absent key. -/
structure UserFilters where
  email : Option String := none
  isActive : Option Bool := none
  isAdmin : Option Bool := none
  firstName : Option String := none
  lastName : Option String := none
deriving DecidableEq, Repr

/-- The empty filters object (`{}` in the source). -/
def emptyFilters : UserFilters := {}

/-- A mongo condition on a string field: either a raw value (exact match)
or the case-insensitive partial-match object built by `prepare`
(`$regex` with option `i`). -/
inductive FieldCond where
  | exact (v : String)
  | iRegex (v : String)
deriving DecidableEq, Repr

/-- Filters after `prepare`: boolean fields keep their raw value, string
fields carry a `FieldCond`. -/
structure PreparedFilters where
  email : Option FieldCond := none
  isActive : Option Bool := none
  isAdmin : Option Bool := none
  firstName : Option FieldCond := none
  lastName : Option FieldCond := none
deriving DecidableEq, Repr

/-- User.prepare (src/src/User.ts lines 39-52): every provided key except
`isAdmin` and `isActive` is rewritten into a case-insensitive partial-match
condition; the two booleans pass through untouched. -/
def prepare (filters : UserFilters) : PreparedFilters where
  email := filters.email.map FieldCond.iRegex
  isActive := filters.isActive
  isAdmin := filters.isAdmin
  firstName := filters.firstName.map FieldCond.iRegex
  lastName := filters.lastName.map FieldCond.iRegex

/-- Contiguous-sublist test on character lists. -/
def charsInfixOf (p : List Char) : List Char → Bool
  | [] => p.isEmpty
  | c :: t => p.isPrefixOf (c :: t) || charsInfixOf p t

/-- Case-insensitive substring test, the semantics of a
`$regex`/`$options: i` condition built from a plain pattern string. -/
def iMatch (pat s : String) : Bool :=
  charsInfixOf (pat.data.map Char.toLower) (s.data.map Char.toLower)

/-- Semantics of a string-field condition. -/
def FieldCond.holds : FieldCond → String → Bool
  | .exact v, s => v == s
  | .iRegex v, s => iMatch v s

/-- An absent condition matches everything. -/
def condMatches (cond : Option FieldCond) (s : String) : Bool :=
  match cond with
  | none => true
  | some c => c.holds s

/-- An absent boolean filter matches everything. -/
def boolMatches (cond : Option Bool) (b : Bool) : Bool :=
  match cond with
  | none => true
  | some v => v == b

/-- Whether a stored document satisfies prepared filters, the semantics of
the query predicate handed to `count`/`find`. -/
def matchesFilters (pf : PreparedFilters) (u : UserDoc) : Bool :=
  condMatches pf.email u.email && boolMatches pf.isActive u.isActive &&
  boolMatches pf.isAdmin u.isAdmin && condMatches pf.firstName u.firstName &&
  condMatches pf.lastName u.lastName

/-- Whether an inclusive projection keeps a field: no field list (or an
empty one, which the source skips via `fields && fields.length`) keeps
everything. -/
def selects (fields : Option (List String)) (name : String) : Bool :=
  match fields with
  | none => true
  | some fs => fs.isEmpty || fs.contains name

/-- Projection of a stored document onto selected fields (`query.select`);
`_id` is always included. -/
def project (fields : Option (List String)) (u : UserDoc) : UserProj where
  _id := some u._id
  email := if selects fields "email" then some u.email else none
  password := if selects fields "password" then some u.password else none
  isActive := if selects fields "isActive" then some u.isActive else none
  isAdmin := if selects fields "isAdmin" then some u.isAdmin else none
  firstName := if selects fields "firstName" then some u.firstName else none
  lastName := if selects fields "lastName" then some u.lastName else none
  cars := if selects fields "cars" then some u.cars else none

/-- User.fetch (src/src/User.ts lines 185-205): dispatch on `isEmail`,
`findOne` by e-mail or `findById` after an `ObjectId` conversion that
throws on malformed identifier strings. -/
def fetch (store : List UserDoc) (criteria : String)
    (fields : Option (List String)) : Except Err (Option UserProj) :=
  if isEmail criteria then
    .ok ((store.find? (fun u => u.email == criteria)).map (project fields))
  else
    match ObjectId? criteria with
    | none => .error .castError
    | some oid =>
      .ok ((store.find? (fun u => u._id == oid)).map (project fields))

/-- User.count (src/src/User.ts lines 215-219): cardinality of the
documents matching `prepare(filters or empty)`. -/
def count (store : List UserDoc) (filters : Option UserFilters) : Nat :=
  (store.filter (matchesFilters (prepare (filters.getD emptyFilters)))).length

/-- User.find (src/src/User.ts lines 234-257): filter, optional projection,
and pagination clauses applied only when `skip`/`limit` are truthy. -/
def find (store : List UserDoc) (filters : Option UserFilters)
    (fields : Option (List String)) (skip limit : Option Nat) :
    List UserProj :=
  let base := store.filter (matchesFilters (prepare (filters.getD emptyFilters)))
  let s1 := if truthyNat skip then base.drop (skip.getD 0) else base
  let s2 := if truthyNat limit then s1.take (limit.getD 0) else s1
  s2.map (project fields)

/-- User.carsCount (src/src/User.ts lines 161-173): resolve the lookup
field by `isEmail`, convert a non-e-mail criteria with `ObjectId` (which
throws on malformed strings), aggregate the size of the matched user's
`cars`, defaulting to 0 when nothing matches. -/
def carsCount (store : List UserDoc) (idOrEmail : String) : Except Err Nat :=
  if isEmail idOrEmail then
    .ok (match store.find? (fun u => u.email == idOrEmail) with
         | some u => u.cars.length
         | none => 0)
  else
    match ObjectId? idOrEmail with
    | none => .error .castError
    | some oid =>
      .ok (match store.find? (fun u => u._id == oid) with
           | some u => u.cars.length
           | none => 0)

/-- Fresh document id assigned by the store on insertion. -/
def freshId (store : List UserDoc) : Nat :=
  store.foldr (fun u m => max u._id m) 0 + 1

/-- Fresh car sub-document id assigned by the store on push. -/
def freshCarId (store : List UserDoc) : Nat :=
  store.foldr (fun u m => u.cars.foldr (fun c m2 => max c._id m2) m) 0 + 1

/-- User.createUser (src/src/User.ts lines 93-108): `save()` runs schema
validation (required non-empty `email`, `password`, `firstName`,
`lastName`), then the unique `email` index; a duplicate-key failure is
translated to the duplicate-e-mail TypeError, any other error is rethrown;
on success the document is re-fetched by e-mail. -/
def createUser (store : List UserDoc) (data : UserInput)
    (fields : Option (List String)) :
    Except Err (Option UserProj) × List UserDoc :=
  match data.email, data.password, data.firstName, data.lastName with
  | some e, some p, some fn, some ln =>
    if e ≠ "" ∧ p ≠ "" ∧ fn ≠ "" ∧ ln ≠ "" then
      if store.any (fun u => u.email == e) then (.error .duplicateEmail, store)
      else
        let d : UserDoc :=
          { _id := freshId store, email := e, password := p
            isActive := data.isActive.getD true
            isAdmin := data.isAdmin.getD false
            firstName := fn, lastName := ln
            cars := data.cars.getD [] }
        let store' := store ++ [d]
        (fetch store' e fields, store')
    else (.error .validationError, store)
  | _, _, _, _ => (.error .validationError, store)

/-- Effect of a `$set`-style partial update: every field present in the
payload overwrites the stored value, every absent field is kept. -/
def applySet (data : UserInput) (u : UserDoc) : UserDoc where
  _id := u._id
  email := data.email.getD u.email
  password := data.password.getD u.password
  isActive := data.isActive.getD u.isActive
  isAdmin := data.isAdmin.getD u.isAdmin
  firstName := data.firstName.getD u.firstName
  lastName := data.lastName.getD u.lastName
  cars := data.cars.getD u.cars

/-- Replace the first element satisfying `p` (the semantics of a
single-document `updateOne`/`update` call). -/
def updateFirst {α : Type} (p : α → Bool) (f : α → α) : List α → List α
  | [] => []
  | x :: rest => if p x then f x :: rest else x :: updateFirst p f rest

/-- User.updateUser (src/src/User.ts lines 118-125): stringify and strip
`_id`, `updateOne` by that id (casting throws on a malformed id; writing a
colliding e-mail violates the unique index), then re-fetch by id. -/
def updateUser (store : List UserDoc) (data : UserInput)
    (fields : Option (List String)) :
    Except Err (Option UserProj) × List UserDoc :=
  let idStr := data._id.getD ""
  let d : UserInput := { data with _id := none }
  match ObjectId? idStr with
  | none => (.error .castError, store)
  | some oid =>
    match store.find? (fun u => u._id == oid) with
    | none => (fetch store idStr fields, store)
    | some _ =>
      let emailConflict :=
        match d.email with
        | some e => store.any (fun v => v._id != oid && v.email == e)
        | none => false
      if emailConflict then (.error .duplicateKey, store)
      else
        let store' := updateFirst (fun u => u._id == oid) (applySet d) store
        (fetch store' idStr fields, store')

/-- Password hashing step of `update`: a truthy password is replaced by its
digest, anything else is left alone. -/
def hashPassword (data : UserInput) : UserInput :=
  match data.password with
  | some p => if p ≠ "" then { data with password := some (md5 p) } else data
  | none => data

/-- User.update (src/src/User.ts lines 136-151): hash a truthy password,
then branch on the truthiness of `data._id` between update and create. -/
def update (store : List UserDoc) (data : UserInput)
    (fields : Option (List String)) :
    Except Err (Option UserProj) × List UserDoc :=
  let d := hashPassword data
  if truthy d._id then updateUser store d fields
  else createUser store d fields

/-- Whether a user owns a car with the given sub-document id. -/
def hasCar (cid : Nat) (u : UserDoc) : Bool :=
  u.cars.any (fun c => c._id == cid)

/-- User.addCar (src/src/User.ts lines 270-300): the limit check runs
before the try block (its errors, and the limit error, propagate); inside
the try block an `ObjectId` failure or a push that modifies no document
yields `null`; on success the user is re-fetched. -/
def addCar (store : List UserDoc) (userId carId regNumber : String)
    (maxCars : Nat) (selectedFields : Option (List String)) :
    Except Err (Option UserProj) × List UserDoc :=
  match carsCount store userId with
  | .error e => (.error e, store)
  | .ok n =>
    if n ≥ maxCars then (.error .limitExceeded, store)
    else
      match ObjectId? userId with
      | none => (.ok none, store)
      | some oid =>
        if store.any (fun u => u._id == oid) then
          let newCar : Car :=
            { _id := freshCarId store, carId := carId, regNumber := regNumber }
          let store' := updateFirst (fun u => u._id == oid)
            (fun u => { u with cars := u.cars ++ [newCar] }) store
          match fetch store' userId selectedFields with
          | .error _ => (.ok none, store')
          | .ok r => (.ok r, store')
        else (.ok none, store)

/-- Iterated `addCar` with the same arguments, threading the store. -/
def addCarSeq (maxCars : Nat) (userId carId regNumber : String) :
    Nat → List UserDoc → List (Except Err (Option UserProj)) × List UserDoc
  | 0, store => ([], store)
  | n + 1, store =>
    let (r, store') := addCar store userId carId regNumber maxCars none
    let (rs, storeF) := addCarSeq maxCars userId carId regNumber n store'
    (r :: rs, storeF)

/-- Removal of the car with the given sub-document id from a user, the
effect of the `$pull` in `removeCar`. -/
def remCar (cid : Nat) (u : UserDoc) : UserDoc :=
  { u with cars := u.cars.filter (fun c => c._id != cid) }

/-- User.removeCar (src/src/User.ts lines 311-338): the whole body sits in
a try block whose catch logs and returns `null`, so a malformed car id or a
missing owner (the internally thrown invalid-car-id error) surface as
`null`; otherwise the matching sub-document is pulled and the owner
re-fetched by its stringified id. -/
def removeCar (store : List UserDoc) (carId : String)
    (selectedFields : Option (List String)) :
    Except Err (Option UserProj) × List UserDoc :=
  match ObjectId? carId with
  | none => (.ok none, store)
  | some cid =>
    match store.find? (hasCar cid) with
    | none => (.ok none, store)
    | some u =>
      let store' := updateFirst (hasCar cid) (remCar cid) store
      match fetch store' (idToString u._id) selectedFields with
      | .error _ => (.ok none, store')
      | .ok r => (.ok r, store')

/-- Success-with-document test on a service result. -/
def isOkSome : Except Err (Option UserProj) → Bool
  | .ok (some _) => true
  | _ => false

theorem find?_append_none {α : Type} {p : α → Bool} {l1 l2 : List α}
    (h : l1.find? p = none) : (l1 ++ l2).find? p = l2.find? p := by
  induction l1 with
  | nil => rfl
  | cons x t ih =>
    cases hx : p x
    · rw [List.find?_cons_of_neg _ (by simp [hx])] at h
      rw [List.cons_append, List.find?_cons_of_neg _ (by simp [hx])]
      exact ih h
    · rw [List.find?_cons_of_pos _ hx] at h
      cases h

theorem find?_eq_none_of_any {α : Type} {p : α → Bool} {l : List α}
    (h : l.any p = false) : l.find? p = none := by
  rw [List.find?_eq_none]
  intro x hx hpx
  rw [List.any_eq_false] at h
  exact h x hx hpx

theorem updateFirst_cons_pos {α : Type} {p : α → Bool} {f : α → α}
    {x : α} {t : List α} (h : p x = true) :
    updateFirst p f (x :: t) = f x :: t := by
  simp [updateFirst, h]

theorem updateFirst_cons_neg {α : Type} {p : α → Bool} {f : α → α}
    {x : α} {t : List α} (h : p x = false) :
    updateFirst p f (x :: t) = x :: updateFirst p f t := by
  simp [updateFirst, h]

/-- A single-document update moves the first `p`-match through `f`; when
the same element is also the first `q`-match and `f` keeps it a `q`-match,
the updated list's first `q`-match is its image. -/
theorem find?_updateFirst {α : Type} {p q : α → Bool} {f : α → α} :
    ∀ {l : List α} {u : α}, l.find? p = some u → l.find? q = some u →
    q (f u) = true → (updateFirst p f l).find? q = some (f u) := by
  intro l
  induction l with
  | nil => intro u hp _ _; cases hp
  | cons x t ih =>
    intro u hp hq hqf
    cases hx : p x
    · rw [List.find?_cons_of_neg _ (by simp [hx])] at hp
      have hpu : p u = true := List.find?_some hp
      cases hqx : q x
      · rw [List.find?_cons_of_neg _ (by simp [hqx])] at hq
        rw [updateFirst_cons_neg hx, List.find?_cons_of_neg _ (by simp [hqx])]
        exact ih hp hq hqf
      · rw [List.find?_cons_of_pos _ hqx] at hq
        cases hq
        rw [hpu] at hx
        cases hx
    · rw [List.find?_cons_of_pos _ hx] at hp
      cases hp
      rw [updateFirst_cons_pos hx, List.find?_cons_of_pos _ hqf]

theorem length_filter_not_countP {α : Type} (p : α → Bool) (l : List α) :
    (l.filter (fun c => !(p c))).length + l.countP p = l.length := by
  induction l with
  | nil => rfl
  | cons x t ih =>
    cases hx : p x <;>
      simp [List.filter_cons, List.countP_cons, hx] <;> omega

theorem isEmail_ne_empty {e : String} (h : isEmail e = true) : e ≠ "" := by
  intro he
  subst he
  simp [isEmail, List.contains] at h

theorem md5_ne_empty (p : String) : md5 p ≠ "" := by
  intro h
  have := congrArg String.data h
  simp [md5] at this

theorem hashPassword_id (d : UserInput) : (hashPassword d)._id = d._id := by
  cases hp : d.password <;> simp [hashPassword, hp]
  split <;> rfl

theorem hashPassword_email (d : UserInput) :
    (hashPassword d).email = d.email := by
  cases hp : d.password <;> simp [hashPassword, hp]
  split <;> rfl

/-- Filters selecting the active users, as in `find({isActive: true})`. -/
def activeFilters : UserFilters := { isActive := some true }

/-- Five active stored users with distinct e-mails and ids. -/
def fiveActive : List UserDoc :=
  [⟨1, "a@x.io", "p1", true, false, "A", "Z", []⟩,
   ⟨2, "b@x.io", "p2", true, false, "B", "Z", []⟩,
   ⟨3, "c@x.io", "p3", true, false, "C", "Z", []⟩,
   ⟨4, "d@x.io", "p4", true, false, "D", "Z", []⟩,
   ⟨5, "e@x.io", "p5", true, false, "E", "Z", []⟩]

/-- C6: `prepare` passes the `isActive` and `isAdmin` values through
untouched, rewrites the value of every other provided key into a
case-insensitive partial-match condition, and the empty filters object is
returned unchanged (still empty) and matches every record. -/
theorem prepare_spec (f : UserFilters) :
    (prepare f).isActive = f.isActive ∧
    (prepare f).isAdmin = f.isAdmin ∧
    (prepare f).email = f.email.map FieldCond.iRegex ∧
    (prepare f).firstName = f.firstName.map FieldCond.iRegex ∧
    (prepare f).lastName = f.lastName.map FieldCond.iRegex ∧
    prepare emptyFilters = {} ∧
    (∀ u : UserDoc, matchesFilters (prepare emptyFilters) u = true) :=
  ⟨rfl, rfl, rfl, rfl, rfl, rfl, fun _ => rfl⟩

/-- C7: for a stored user found both by its e-mail and by its identifier,
`fetch` with the e-mail (a criteria containing the at-sign) and `fetch`
with the identifier string return the same document projection. -/
theorem fetch_email_id_agree (store : List UserDoc)
    (fields : Option (List String)) (u : UserDoc)
    (hemail : isEmail u.email = true)
    (hfe : store.find? (fun v => v.email == u.email) = some u)
    (hfi : store.find? (fun v => v._id == u._id) = some u) :
    fetch store u.email fields = .ok (some (project fields u)) ∧
    fetch store (idToString u._id) fields = .ok (some (project fields u)) := by
  constructor
  · simp [fetch, hemail, hfe]
  · simp [fetch, isEmail_idToString, objectId_idToString, hfi]

/-- Witness for C7 on a concrete two-user store. -/
theorem fetch_email_id_agree_witness :
    fetch fiveActive "b@x.io" none =
      .ok (some (project none ⟨2, "b@x.io", "p2", true, false, "B", "Z", []⟩)) ∧
    fetch fiveActive (idToString 2) none =
      .ok (some (project none ⟨2, "b@x.io", "p2", true, false, "B", "Z", []⟩)) :=
  fetch_email_id_agree fiveActive none
    ⟨2, "b@x.io", "p2", true, false, "B", "Z", []⟩
    (by decide) (by decide) (by decide)

/-- C8: a zero skip or limit behaves exactly like an absent one (no
pagination clause), a positive limit bounds the result length, and over a
store with five active users `find({isActive: true}, _, 0, 2)` returns
exactly the first two of them while `count({isActive: true})` returns 5. -/
theorem find_pagination_spec (store : List UserDoc)
    (filters : Option UserFilters) (fields : Option (List String))
    (sk lim : Option Nat) :
    (find store filters fields (some 0) lim = find store filters fields none lim) ∧
    (find store filters fields sk (some 0) = find store filters fields sk none) ∧
    (∀ n : Nat, 0 < n → (find store filters fields sk (some n)).length ≤ n) ∧
    (∀ store5 : List UserDoc,
      (store5.filter (matchesFilters (prepare activeFilters))).length = 5 →
      find store5 (some activeFilters) none (some 0) (some 2) =
        ((store5.filter (matchesFilters (prepare activeFilters))).take 2).map
          (project none) ∧
      (find store5 (some activeFilters) none (some 0) (some 2)).length = 2 ∧
      count store5 (some activeFilters) = 5) := by
  refine ⟨by simp [find, truthyNat], by simp [find, truthyNat], ?_, ?_⟩
  · intro n hn
    simp only [find, truthyNat, List.length_map]
    have : (some n).getD 0 = n := rfl
    split
    · rw [this, List.length_take]
      omega
    · simp at *
      omega
  · intro store5 h5
    refine ⟨by simp [find, truthyNat], ?_, ?_⟩
    · simp only [find, truthyNat, List.length_map]
      simp [List.length_take, h5]
    · simp [count, h5]

/-- Witness for C8 on the concrete five-user store. -/
theorem find_pagination_witness :
    0 < 2 ∧
    (find fiveActive (some activeFilters) none (some 0) (some 2)).length = 2 ∧
    count fiveActive (some activeFilters) = 5 := by
  have h := (find_pagination_spec fiveActive (some activeFilters) none
    (some 0) (some 2)).2.2.2 fiveActive (by decide)
  exact ⟨by decide, h.2.1, h.2.2⟩

/-- Cars-count of an optional lookup result: the matched user's `cars`
length, or 0 when nothing matched. -/
def carsOf (o : Option UserDoc) : Nat :=
  (o.map (fun u => u.cars.length)).getD 0

/-- Counterexample for C9: on the string `zzz` — no at-sign, so resolved to
the identifier field — `carsCount` fails with the identifier-conversion
error instead of returning 0 for "no user matches". -/
theorem carsCount_malformed_cex :
    carsCount [] "zzz" = .error .castError ∧
    carsCount [] "zzz" ≠ .ok 0 := by
  constructor
  · rfl
  · intro h
    rw [(rfl : carsCount [] "zzz" = Except.error Err.castError)] at h
    cases h

/-- C9 (amended): `carsCount` resolves the lookup field by presence of the
at-sign and returns the matched user's `cars` length, or 0 when no user
matches, for every e-mail criteria and every well-formed identifier string;
a non-e-mail string that is not a well-formed identifier makes it fail with
the identifier-conversion error instead. -/
theorem carsCount_spec (store : List UserDoc) (s : String) :
    (isEmail s = true →
      carsCount store s = .ok (carsOf (store.find? (fun u => u.email == s)))) ∧
    (∀ oid : Nat, ObjectId? s = some oid →
      carsCount store s = .ok (carsOf (store.find? (fun u => u._id == oid)))) ∧
    (isEmail s = false → ObjectId? s = none →
      carsCount store s = .error .castError) := by
  refine ⟨?_, ?_, ?_⟩
  · intro h
    cases hf : store.find? (fun u => u.email == s) <;>
      simp [carsCount, h, hf, carsOf]
  · intro oid hoid
    have he := isEmail_of_objectId hoid
    cases hf : store.find? (fun u => u._id == oid) <;>
      simp [carsCount, he, hoid, hf, carsOf]
  · intro h1 h2
    simp [carsCount, h1, h2]

/-- Witness for C9 (amended) on a concrete store. -/
theorem carsCount_spec_witness :
    carsCount fiveActive "a@x.io" = .ok 0 ∧
    carsCount fiveActive (idToString 3) = .ok 0 ∧
    carsCount fiveActive "zzz" = .error .castError := by
  have h := carsCount_spec fiveActive "a@x.io"
  have h2 := carsCount_spec fiveActive (idToString 3)
  have h3 := carsCount_spec fiveActive "zzz"
  exact ⟨h.1 (by decide), h2.2.1 3 (by decide), h3.2.2 (by decide) (by decide)⟩

/-- C10: for a userId that is an e-mail address, the limit check of
`addCar` accepts it (`carsCount` succeeds), but once past the check the
`ObjectId` conversion of the push fails, the error is caught, and `addCar`
returns null with the store unchanged — no car is ever appended. -/
theorem addCar_email_userId (store : List UserDoc) (uid c r : String)
    (maxCars : Nat) (fields : Option (List String)) (n : Nat)
    (he : isEmail uid = true)
    (hcnt : carsCount store uid = .ok n)
    (hlt : n < maxCars) :
    addCar store uid c r maxCars fields = (.ok none, store) ∧
    (∃ m : Nat, carsCount store uid = .ok m) := by
  refine ⟨?_, ⟨n, hcnt⟩⟩
  simp only [addCar, hcnt]
  rw [if_neg (by omega), objectId_isEmail_eq_none he]

/-- Witness for C10: an e-mail userId of a stored user below the limit. -/
theorem addCar_email_userId_witness :
    addCar fiveActive "a@x.io" "car9" "reg9" 3 none = (.ok none, fiveActive) ∧
    (∃ m : Nat, carsCount fiveActive "a@x.io" = .ok m) :=
  addCar_email_userId fiveActive "a@x.io" "car9" "reg9" 3 none 0
    (by decide) rfl (by decide)

theorem hashPassword_firstName (d : UserInput) :
    (hashPassword d).firstName = d.firstName := by
  cases hp : d.password <;> simp [hashPassword, hp]
  split <;> rfl

/-- The document inserted by the create path for a payload with the given
required fields (password already hashed to `pw`), with schema defaults
for the absent optional fields. -/
def newDoc (store : List UserDoc) (data : UserInput)
    (e pw fn ln : String) : UserDoc :=
  { _id := freshId store, email := e, password := pw,
    isActive := data.isActive.getD true, isAdmin := data.isAdmin.getD false,
    firstName := fn, lastName := ln, cars := data.cars.getD [] }

/-- C3: `update` on a payload with no identifier, an unused e-mail and a
truthy password inserts exactly one new document whose password is the
digest of the supplied plaintext, and returns that document freshly
re-fetched by e-mail under the requested projection. -/
theorem update_create_spec (store : List UserDoc) (data : UserInput)
    (fields : Option (List String)) (e p fn ln : String)
    (hid : data._id = none)
    (he : data.email = some e) (hee : isEmail e = true)
    (hunused : store.any (fun u => u.email == e) = false)
    (hp : data.password = some p) (hpne : p ≠ "")
    (hfn : data.firstName = some fn) (hfnne : fn ≠ "")
    (hln : data.lastName = some ln) (hlnne : ln ≠ "") :
    ∃ d : UserDoc,
      update store data fields = (.ok (some (project fields d)), store ++ [d]) ∧
      d.password = md5 p ∧ d.email = e ∧
      (store ++ [d]).length = store.length + 1 := by
  have hhash : hashPassword data = { data with password := some (md5 p) } := by
    simp [hashPassword, hp, hpne]
  refine ⟨newDoc store data e (md5 p) fn ln, ?_, rfl, rfl, by simp⟩
  simp only [update, hhash]
  have htr : truthy ({ data with password := some (md5 p) } : UserInput)._id
      = false := by
    show truthy data._id = false
    rw [hid]
    rfl
  rw [htr]
  simp only [Bool.false_eq_true, if_false, createUser]
  have hce : ({ data with password := some (md5 p) } : UserInput).email
      = some e := by show data.email = some e; exact he
  have hcf : ({ data with password := some (md5 p) } : UserInput).firstName
      = some fn := by show data.firstName = some fn; exact hfn
  have hcl : ({ data with password := some (md5 p) } : UserInput).lastName
      = some ln := by show data.lastName = some ln; exact hln
  rw [hce, hcf, hcl]
  simp only []
  rw [if_pos ⟨isEmail_ne_empty hee, md5_ne_empty p, hfnne, hlnne⟩, hunused]
  simp only [Bool.false_eq_true, if_false]
  have hfetch :
      fetch (store ++ [newDoc store data e (md5 p) fn ln]) e fields =
        .ok (some (project fields (newDoc store data e (md5 p) fn ln))) := by
    simp only [fetch, hee, if_pos]
    rw [find?_append_none (find?_eq_none_of_any hunused)]
    rw [List.find?_cons_of_pos _ (by simp [newDoc])]
    rfl
  show (fetch (store ++ [newDoc store data e (md5 p) fn ln]) e fields,
        store ++ [newDoc store data e (md5 p) fn ln]) =
       (.ok (some (project fields (newDoc store data e (md5 p) fn ln))),
        store ++ [newDoc store data e (md5 p) fn ln])
  rw [hfetch]

/-- Witness for C3: creating a user in the empty store. -/
theorem update_create_witness :
    ∃ d : UserDoc,
      update ([] : List UserDoc)
          { email := some "n@w.io", password := some "secret",
            firstName := some "New", lastName := some "User" } none =
        (.ok (some (project none d)), ([] : List UserDoc) ++ [d]) ∧
      d.password = md5 "secret" ∧ d.email = "n@w.io" ∧
      (([] : List UserDoc) ++ [d]).length = ([] : List UserDoc).length + 1 :=
  update_create_spec ([] : List UserDoc)
    { email := some "n@w.io", password := some "secret",
      firstName := some "New", lastName := some "User" } none
    "n@w.io" "secret" "New" "User"
    rfl rfl (by decide) (by decide) rfl (by decide) rfl (by decide) rfl (by decide)

/-- C4: `update` on a payload with no identifier whose e-mail is already
stored fails with the duplicate-e-mail error and inserts nothing, the store
staying unchanged; any other store error on the create path — here a
validation failure — propagates to the caller unmodified. -/
theorem update_duplicate_create_spec (store : List UserDoc)
    (data : UserInput) (fields : Option (List String)) (e : String)
    (hid : data._id = none)
    (he : data.email = some e) (hene : e ≠ "")
    (hdup : store.any (fun u => u.email == e) = true)
    (htp : truthy data.password = true)
    (htf : truthy data.firstName = true)
    (htl : truthy data.lastName = true) :
    update store data fields = (.error .duplicateEmail, store) ∧
    (∀ data2 : UserInput, data2._id = none → data2.firstName = none →
      update store data2 fields = (.error .validationError, store)) := by
  constructor
  · obtain ⟨p, hp, hpne⟩ : ∃ p, data.password = some p ∧ p ≠ "" := by
      cases hdp : data.password with
      | none => rw [hdp] at htp; cases htp
      | some p =>
        refine ⟨p, rfl, ?_⟩
        rw [hdp] at htp
        simpa [truthy] using htp
    obtain ⟨fn, hfn, hfnne⟩ : ∃ fn, data.firstName = some fn ∧ fn ≠ "" := by
      cases hdf : data.firstName with
      | none => rw [hdf] at htf; cases htf
      | some fn =>
        refine ⟨fn, rfl, ?_⟩
        rw [hdf] at htf
        simpa [truthy] using htf
    obtain ⟨ln, hln, hlnne⟩ : ∃ ln, data.lastName = some ln ∧ ln ≠ "" := by
      cases hdl : data.lastName with
      | none => rw [hdl] at htl; cases htl
      | some ln =>
        refine ⟨ln, rfl, ?_⟩
        rw [hdl] at htl
        simpa [truthy] using htl
    have hhash : hashPassword data = { data with password := some (md5 p) } := by
      simp [hashPassword, hp, hpne]
    simp only [update, hhash]
    have htr : truthy ({ data with password := some (md5 p) } : UserInput)._id
        = false := by
      show truthy data._id = false
      rw [hid]
      rfl
    rw [htr]
    simp only [Bool.false_eq_true, if_false, createUser]
    have hce : ({ data with password := some (md5 p) } : UserInput).email
        = some e := by show data.email = some e; exact he
    have hcf : ({ data with password := some (md5 p) } : UserInput).firstName
        = some fn := by show data.firstName = some fn; exact hfn
    have hcl : ({ data with password := some (md5 p) } : UserInput).lastName
        = some ln := by show data.lastName = some ln; exact hln
    rw [hce, hcf, hcl]
    simp only []
    rw [if_pos ⟨hene, md5_ne_empty p, hfnne, hlnne⟩, hdup]
    rfl
  · intro data2 h2id h2fn
    have h2fn' : (hashPassword data2).firstName = none := by
      rw [hashPassword_firstName, h2fn]
    have h2id' : (hashPassword data2)._id = none := by
      rw [hashPassword_id, h2id]
    simp only [update]
    rw [(by rw [h2id']; rfl : truthy (hashPassword data2)._id = false)]
    simp only [Bool.false_eq_true, if_false, createUser]
    cases he2 : (hashPassword data2).email <;>
      cases hp2 : (hashPassword data2).password <;>
      cases hl2 : (hashPassword data2).lastName <;>
      rw [h2fn']

theorem hashPassword_isActive (d : UserInput) :
    (hashPassword d).isActive = d.isActive := by
  cases hp : d.password <;> simp [hashPassword, hp]
  split <;> rfl

theorem hashPassword_isAdmin (d : UserInput) :
    (hashPassword d).isAdmin = d.isAdmin := by
  cases hp : d.password <;> simp [hashPassword, hp]
  split <;> rfl

theorem hashPassword_lastName (d : UserInput) :
    (hashPassword d).lastName = d.lastName := by
  cases hp : d.password <;> simp [hashPassword, hp]
  split <;> rfl

theorem hashPassword_cars (d : UserInput) :
    (hashPassword d).cars = d.cars := by
  cases hp : d.password <;> simp [hashPassword, hp]
  split <;> rfl

/-- Two stored users with distinct ids and e-mails. -/
def twoUsers : List UserDoc :=
  [⟨1, "a@x.io", "p1", true, false, "A", "Z", []⟩,
   ⟨2, "b@x.io", "p2", true, false, "B", "Z", []⟩]

/-- Counterexample for C5: updating an existing user's e-mail to the
e-mail of another stored user does not apply the partial update and return
the re-fetched document — the unique-e-mail index rejects the write and the
raw duplicate-key store error propagates, the store unchanged. -/
theorem update_existing_cex :
    update twoUsers { _id := some (idToString 1), email := some "b@x.io" }
      none = (.error .duplicateKey, twoUsers) := rfl

/-- C5 (amended): `update` on a payload carrying the identifier of an
existing user strips the identifier, applies a partial update that
overwrites exactly the fields present in the payload (password as its
digest) and keeps every omitted field, and returns the re-fetched
post-update document — provided the payload's e-mail, if present, does not
collide with another stored user (otherwise the unique-index error
propagates). -/
theorem update_existing_spec (store : List UserDoc) (data : UserInput)
    (fields : Option (List String)) (u : UserDoc) (idStr : String)
    (hid : data._id = some idStr) (hne : idStr ≠ "")
    (hoid : ObjectId? idStr = some u._id)
    (hfind : store.find? (fun v => v._id == u._id) = some u)
    (hnoconf : ∀ e, data.email = some e →
      store.any (fun v => v._id != u._id && v.email == e) = false) :
    ∃ u' : UserDoc,
      update store data fields =
        (.ok (some (project fields u')),
         updateFirst (fun v => v._id == u._id)
           (applySet { hashPassword data with _id := none }) store) ∧
      u'._id = u._id ∧
      (data.email = none → u'.email = u.email) ∧
      (∀ e, data.email = some e → u'.email = e) ∧
      (data.password = none → u'.password = u.password) ∧
      (∀ p, data.password = some p → p ≠ "" → u'.password = md5 p) ∧
      (data.isActive = none → u'.isActive = u.isActive) ∧
      (∀ b, data.isActive = some b → u'.isActive = b) ∧
      (data.isAdmin = none → u'.isAdmin = u.isAdmin) ∧
      (∀ b, data.isAdmin = some b → u'.isAdmin = b) ∧
      (data.firstName = none → u'.firstName = u.firstName) ∧
      (∀ s, data.firstName = some s → u'.firstName = s) ∧
      (data.lastName = none → u'.lastName = u.lastName) ∧
      (∀ s, data.lastName = some s → u'.lastName = s) ∧
      (data.cars = none → u'.cars = u.cars) ∧
      (∀ cs, data.cars = some cs → u'.cars = cs) := by
  refine ⟨applySet { hashPassword data with _id := none } u, ?_,
    by simp [applySet],
    fun h => by simp [applySet, hashPassword_email, h],
    fun e h => by simp [applySet, hashPassword_email, h],
    fun h => by simp [applySet, hashPassword, h],
    fun p h hp => by simp [applySet, hashPassword, h, hp],
    fun h => by simp [applySet, hashPassword_isActive, h],
    fun b h => by simp [applySet, hashPassword_isActive, h],
    fun h => by simp [applySet, hashPassword_isAdmin, h],
    fun b h => by simp [applySet, hashPassword_isAdmin, h],
    fun h => by simp [applySet, hashPassword_firstName, h],
    fun s h => by simp [applySet, hashPassword_firstName, h],
    fun h => by simp [applySet, hashPassword_lastName, h],
    fun s h => by simp [applySet, hashPassword_lastName, h],
    fun h => by simp [applySet, hashPassword_cars, h],
    fun cs h => by simp [applySet, hashPassword_cars, h]⟩
  have htr : truthy (hashPassword data)._id = true := by
    rw [hashPassword_id, hid]
    simpa [truthy] using hne
  have hfetch : ∀ d : UserInput,
      fetch (updateFirst (fun v => v._id == u._id) (applySet d) store)
        idStr fields =
      .ok (some (project fields (applySet d u))) := by
    intro d
    have hq : ((applySet d u)._id == u._id) = true := by simp [applySet]
    have hfind' := find?_updateFirst (f := applySet d) hfind hfind hq
    simp only [fetch, isEmail_of_objectId hoid, Bool.false_eq_true, if_false,
      hoid, hfind']
    rfl
  simp only [update, htr, if_pos]
  simp only [updateUser, hashPassword_id, hid, Option.getD_some]
  simp only [hoid, hfind, hashPassword_email]
  cases hde : data.email with
  | none =>
    simp only [hde, Bool.false_eq_true, if_false]
    rw [hfetch]
  | some e =>
    simp only [hde, hnoconf e hde, Bool.false_eq_true, if_false]
    rw [hfetch]

/-- Update payload renaming a stored user's first name. -/
def renamePayload : UserInput :=
  { _id := some (idToString 2), firstName := some "NEW" }

/-- Witness for C5 (amended): renaming the first name of the second stored
user. -/
theorem update_existing_witness :
    ∃ u' : UserDoc,
      update twoUsers renamePayload none =
        (.ok (some (project none u')),
         updateFirst (fun v => v._id == (2 : Nat))
           (applySet { hashPassword renamePayload with _id := none })
           twoUsers) ∧
      u'._id = 2 ∧
      (renamePayload.email = none → u'.email = "b@x.io") ∧
      (∀ e, renamePayload.email = some e → u'.email = e) ∧
      (renamePayload.password = none → u'.password = "p2") ∧
      (∀ p, renamePayload.password = some p → p ≠ "" →
        u'.password = md5 p) ∧
      (renamePayload.isActive = none → u'.isActive = true) ∧
      (∀ b, renamePayload.isActive = some b → u'.isActive = b) ∧
      (renamePayload.isAdmin = none → u'.isAdmin = false) ∧
      (∀ b, renamePayload.isAdmin = some b → u'.isAdmin = b) ∧
      (renamePayload.firstName = none → u'.firstName = "B") ∧
      (∀ s, renamePayload.firstName = some s → u'.firstName = s) ∧
      (renamePayload.lastName = none → u'.lastName = "Z") ∧
      (∀ s, renamePayload.lastName = some s → u'.lastName = s) ∧
      (renamePayload.cars = none → u'.cars = []) ∧
      (∀ cs, renamePayload.cars = some cs → u'.cars = cs) :=
  update_existing_spec twoUsers renamePayload none
    ⟨2, "b@x.io", "p2", true, false, "B", "Z", []⟩ (idToString 2)
    rfl (by decide) (by decide) (by decide) (by intro e h; cases h)

/-- Witness for C4: a duplicate e-mail and a payload missing a required
field, both against the concrete five-user store. -/
theorem update_duplicate_create_witness :
    update fiveActive
        { email := some "a@x.io", password := some "x",
          firstName := some "F", lastName := some "L" } none =
      (.error .duplicateEmail, fiveActive) ∧
    update fiveActive { email := some "q@x.io" } none =
      (.error .validationError, fiveActive) := by
  have h := update_duplicate_create_spec fiveActive
    { email := some "a@x.io", password := some "x",
      firstName := some "F", lastName := some "L" } none "a@x.io"
    rfl rfl (by decide) (by decide) (by decide) (by decide) (by decide)
  exact ⟨h.1, h.2 { email := some "q@x.io" } rfl rfl⟩

theorem length_filter_bne_countP (cid : Nat) (l : List Car) :
    (l.filter (fun c => c._id != cid)).length +
      l.countP (fun c => c._id == cid) = l.length := by
  induction l with
  | nil => rfl
  | cons x t ih =>
    simp only [bne] at ih ⊢
    cases hx : (x._id == cid) <;>
      simp [List.filter_cons, List.countP_cons, hx] <;>
      omega

/-- One stored user owning a single car. -/
def oneCarStore : List UserDoc :=
  [⟨1, "a@x.io", "p1", true, false, "A", "Z", [⟨1, "carA", "regA"⟩]⟩]

/-- One stored user owning two cars. -/
def twoCarStore : List UserDoc :=
  [⟨1, "a@x.io", "p1", true, false, "A", "Z",
    [⟨1, "carA", "regA"⟩, ⟨2, "carB", "regB"⟩]⟩]

/-- Counterexample for C2: with a well-formed car identifier owned by no
user, `removeCar` does not fail with the invalid-car-id error — the error
is thrown inside the method's own try block, caught, and logged, so the
caller receives null (and the store is unchanged). -/
theorem removeCar_unknown_cex :
    removeCar oneCarStore (idToString 2) none = (.ok none, oneCarStore) := rfl

/-- C2 (amended): `removeCar` with a car identifier present in no user's
`cars` returns null with the store unchanged (the invalid-car-id error is
raised and caught internally); with an owned identifier it pulls exactly
that sub-document out of the owning user, keeps every sibling sub-document,
and returns the re-fetched updated owner projection. -/
theorem removeCar_spec (store : List UserDoc) (carId : String)
    (fields : Option (List String)) (cid : Nat) (u : UserDoc)
    (hcid : ObjectId? carId = some cid) :
    (store.find? (hasCar cid) = none →
      removeCar store carId fields = (.ok none, store)) ∧
    (store.find? (hasCar cid) = some u →
     store.find? (fun v => v._id == u._id) = some u →
     removeCar store carId fields =
       (.ok (some (project fields (remCar cid u))),
        updateFirst (hasCar cid) (remCar cid) store) ∧
     (∀ c ∈ u.cars, (c._id == cid) = false → c ∈ (remCar cid u).cars) ∧
     (u.cars.countP (fun c => c._id == cid) = 1 →
       (remCar cid u).cars.length + 1 = u.cars.length)) := by
  constructor
  · intro hnone
    simp only [removeCar, hcid, hnone]
  · intro hown hfind
    refine ⟨?_, ?_, ?_⟩
    · have hq : ((remCar cid u)._id == u._id) = true := by simp [remCar]
      have hfind' := find?_updateFirst (f := remCar cid) hown hfind hq
      simp only [removeCar, hcid, hown]
      simp only [fetch, isEmail_idToString, Bool.false_eq_true, if_false,
        objectId_idToString, hfind']
      rfl
    · intro c hc hne
      simp [remCar, List.mem_filter, hc, bne, hne]
    · intro h1
      have h2 := length_filter_bne_countP cid u.cars
      simp only [remCar]
      omega

/-- Witness for C2 (amended): removing an unknown car returns null, and
removing the first of two cars keeps the sibling. -/
theorem removeCar_spec_witness :
    removeCar twoCarStore (idToString 9) none = (.ok none, twoCarStore) ∧
    (removeCar twoCarStore (idToString 1) none =
      (.ok (some (project none
        (remCar 1 ⟨1, "a@x.io", "p1", true, false, "A", "Z",
          [⟨1, "carA", "regA"⟩, ⟨2, "carB", "regB"⟩]⟩))),
       updateFirst (hasCar 1) (remCar 1) twoCarStore)) := by
  have h1 := (removeCar_spec twoCarStore (idToString 9) none 9
    ⟨1, "a@x.io", "p1", true, false, "A", "Z",
      [⟨1, "carA", "regA"⟩, ⟨2, "carB", "regB"⟩]⟩ (by decide)).1 (by decide)
  have h2 := ((removeCar_spec twoCarStore (idToString 1) none 1
    ⟨1, "a@x.io", "p1", true, false, "A", "Z",
      [⟨1, "carA", "regA"⟩, ⟨2, "carB", "regB"⟩]⟩ (by decide)).2
    (by decide) (by decide)).1
  exact ⟨h1, h2⟩

/-- Effect of a successful car push on the owning user. -/
def pushCar (store : List UserDoc) (carId regNumber : String)
    (u : UserDoc) : UserDoc :=
  { u with cars := u.cars ++
      [{ _id := freshCarId store, carId := carId, regNumber := regNumber }] }

theorem carsCount_singleton (v : UserDoc) (uid : String)
    (hoid : ObjectId? uid = some v._id) :
    carsCount [v] uid = .ok v.cars.length := by
  simp only [carsCount, isEmail_of_objectId hoid, Bool.false_eq_true,
    if_false, hoid]
  rw [List.find?_cons_of_pos _ (by simp)]

theorem addCar_step_ok (v : UserDoc) (uid c r : String) (maxCars : Nat)
    (hoid : ObjectId? uid = some v._id)
    (hlt : v.cars.length < maxCars) :
    addCar [v] uid c r maxCars none =
      (.ok (some (project none (pushCar [v] c r v))), [pushCar [v] c r v]) := by
  have hc := carsCount_singleton v uid hoid
  simp only [addCar, hc]
  rw [if_neg (by omega)]
  simp only [hoid]
  rw [if_pos (by simp)]
  have hfirst : updateFirst (fun u => u._id == v._id)
      (fun u => { u with cars := u.cars ++
        [{ _id := freshCarId [v], carId := c, regNumber := r }] }) [v] =
      [pushCar [v] c r v] := by
    rw [updateFirst_cons_pos (by simp)]
    rfl
  rw [hfirst]
  simp only [fetch, isEmail_of_objectId hoid, Bool.false_eq_true, if_false,
    hoid]
  rw [List.find?_cons_of_pos _ (by simp [pushCar])]
  rfl

theorem addCar_step_limit (v : UserDoc) (uid c r : String) (maxCars : Nat)
    (fields : Option (List String))
    (hoid : ObjectId? uid = some v._id)
    (hge : maxCars ≤ v.cars.length) :
    addCar [v] uid c r maxCars fields = (.error .limitExceeded, [v]) := by
  have hc := carsCount_singleton v uid hoid
  simp only [addCar, hc]
  rw [if_pos (by omega)]

theorem addCarSeq_ok (uid c r : String) (maxCars : Nat) :
    ∀ (n : Nat) (v : UserDoc), ObjectId? uid = some v._id →
    v.cars.length + n ≤ maxCars →
    ∃ (rs : List (Except Err (Option UserProj))) (v' : UserDoc),
      addCarSeq maxCars uid c r n [v] = (rs, [v']) ∧
      rs.length = n ∧ rs.all isOkSome = true ∧
      v'._id = v._id ∧ v'.cars.length = v.cars.length + n := by
  intro n
  induction n with
  | zero => exact fun v _ _ => ⟨[], v, rfl, rfl, rfl, rfl, rfl⟩
  | succ n ih =>
    intro v hoid hle
    have hstep := addCar_step_ok v uid c r maxCars hoid (by omega)
    obtain ⟨rs, v', heq, hlen, hall, hid', hcars⟩ :=
      ih (pushCar [v] c r v) hoid (by simp [pushCar]; omega)
    refine ⟨.ok (some (project none (pushCar [v] c r v))) :: rs, v', ?_,
      by simp [hlen], by simp [hall, isOkSome], hid', ?_⟩
    · simp only [addCarSeq, hstep, heq]
    · simp only [pushCar, List.length_append, List.length_cons,
        List.length_nil] at hcars
      omega

theorem addCarSeq_add (maxCars : Nat) (uid c r : String) (m n : Nat) :
    ∀ store : List UserDoc,
    addCarSeq maxCars uid c r (m + n) store =
      ((addCarSeq maxCars uid c r m store).1 ++
        (addCarSeq maxCars uid c r n
          (addCarSeq maxCars uid c r m store).2).1,
       (addCarSeq maxCars uid c r n
         (addCarSeq maxCars uid c r m store).2).2) := by
  induction m with
  | zero => intro store; simp [addCarSeq]
  | succ m ih =>
    intro store
    rw [Nat.succ_add]
    rcases haddc : addCar store uid c r maxCars none with ⟨r0, s0⟩
    simp only [addCarSeq, haddc, ih s0]
    rcases hseqm : addCarSeq maxCars uid c r m s0 with ⟨rs1, s1⟩
    rcases hseqn : addCarSeq maxCars uid c r n s1 with ⟨rs2, s2⟩
    simp

/-- C1: `addCar` on a user already at or above the configured maximum
fails with the limit-exceeded error and leaves the store unchanged; for a
fresh user with no cars, running `addCar` max+1 times succeeds on each of
the first max calls while the last call fails with the limit error, the
user's `cars` length ending at max. -/
theorem addCar_limit_spec (maxCars : Nat) (store : List UserDoc)
    (uid c r : String) (fields : Option (List String)) (n : Nat)
    (u : UserDoc) :
    (carsCount store uid = .ok n → maxCars ≤ n →
      addCar store uid c r maxCars fields = (.error .limitExceeded, store)) ∧
    (u.cars = [] → ObjectId? uid = some u._id →
      ∃ (rs : List (Except Err (Option UserProj))) (v' : UserDoc),
        addCarSeq maxCars uid c r (maxCars + 1) [u] =
          (rs ++ [.error .limitExceeded], [v']) ∧
        rs.length = maxCars ∧ rs.all isOkSome = true ∧
        v'.cars.length = maxCars) := by
  constructor
  · intro hcnt hge
    simp only [addCar, hcnt]
    rw [if_pos (by omega)]
  · intro hcars hoid
    obtain ⟨rs, v', heq, hlen, hall, hid', hclen⟩ :=
      addCarSeq_ok uid c r maxCars maxCars u hoid (by rw [hcars]; simp)
    have hv'len : v'.cars.length = maxCars := by
      rw [hclen, hcars]
      simp
    refine ⟨rs, v', ?_, hlen, hall, hv'len⟩
    rw [addCarSeq_add maxCars uid c r maxCars 1 [u], heq]
    have hlimit := addCar_step_limit v' uid c r maxCars none
      (by rw [hid']; exact hoid) (by omega)
    simp [addCarSeq, hlimit]

/-- A fresh stored user with no cars. -/
def freshUser : UserDoc := ⟨7, "f@x.io", "pf", true, false, "F", "L", []⟩

/-- Witness for C1: a user with two cars hits the limit 2 immediately, and
a fresh user accepts exactly 2 cars before the third call fails. -/
theorem addCar_limit_witness :
    addCar twoCarStore (idToString 1) "c9" "r9" 2 none =
      (.error .limitExceeded, twoCarStore) ∧
    (∃ (rs : List (Except Err (Option UserProj))) (v' : UserDoc),
      addCarSeq 2 (idToString 7) "c" "r" 3 [freshUser] =
        (rs ++ [.error .limitExceeded], [v']) ∧
      rs.length = 2 ∧ rs.all isOkSome = true ∧ v'.cars.length = 2) := by
  have h1 := (addCar_limit_spec 2 twoCarStore (idToString 1) "c9" "r9" none 2
    freshUser).1 rfl (by decide)
  have h2 := (addCar_limit_spec 2 twoCarStore (idToString 7) "c" "r" none 2
    freshUser).2 rfl (by decide)
  exact ⟨h1, h2⟩

end UserService
